import Mathlib

/-!
Verification of the ratarmount core mount sources (AR archives and HTML
data URLs) against their natural-language specification.  The Python
sources `ratarmountcore/mountsource/formats/ar.py` and
`ratarmountcore/mountsource/formats/html.py` are shallowly embedded:
byte strings become `List Nat`, text becomes `List Char` / `String`,
fallible code returns `Option` or `Except`.
-/

set_option maxRecDepth 20000

/-! ## Generic Python string/byte helpers -/

/-- Python `str.strip()` whitespace test, restricted to the ASCII whitespace
characters (space, tab, newline, carriage return, vertical tab, form feed). -/
def isPySpace (c : Char) : Bool :=
  c.toNat = 32 || c.toNat = 9 || c.toNat = 10 || c.toNat = 13 || c.toNat = 11 || c.toNat = 12

/-- Python `str.strip()`: remove whitespace from both ends. -/
def pyStripChars (cs : List Char) : List Char :=
  ((cs.dropWhile isPySpace).reverse.dropWhile isPySpace).reverse

/-- Python `str.split(';')` on a character list. -/
def splitSemicolons : List Char → List (List Char)
  | [] => [[]]
  | c :: rest =>
    if c.toNat = 59 then [] :: splitSemicolons rest
    else
      match splitSemicolons rest with
      | h :: t => (c :: h) :: t
      | [] => [[c]]

/-- Python `str.endswith(suffix)` on character lists. -/
def endsWithList (l suf : List Char) : Bool :=
  decide (suf.length ≤ l.length) && decide (l.drop (l.length - suf.length) = suf)

/-- Value of an ASCII hex digit, if it is one. -/
def hexVal (c : Char) : Option Nat :=
  if 48 ≤ c.toNat ∧ c.toNat ≤ 57 then some (c.toNat - 48)
  else if 97 ≤ c.toNat ∧ c.toNat ≤ 102 then some (c.toNat - 87)
  else if 65 ≤ c.toNat ∧ c.toNat ≤ 70 then some (c.toNat - 55)
  else none

/-! ## `urllib.parse.unquote` model

Percent-escapes (`%` followed by two hex digits) are decoded to bytes;
maximal runs of decoded bytes are then UTF-8 decoded with invalid bytes
replaced by U+FFFD, which models the stdlib's `errors='replace'`. -/

/-- Tokenize: each `%HH` escape becomes a byte (`Sum.inr`), any other
character is kept literally (`Sum.inl`), exactly as `urllib.parse.unquote`
recognizes escapes. -/
def percentTokensAux : Nat → List Char → List (Char ⊕ Nat)
  | 0, _ => []
  | _, [] => []
  | fuel + 1, c :: rest =>
    if c.toNat = 37 then
      match rest with
      | a :: b :: rest2 =>
        match hexVal a, hexVal b with
        | some ha, some hb => Sum.inr (ha * 16 + hb) :: percentTokensAux fuel rest2
        | _, _ => Sum.inl c :: percentTokensAux fuel rest
      | _ => Sum.inl c :: percentTokensAux fuel rest
    else Sum.inl c :: percentTokensAux fuel rest

/-- Tokenizer entry point; the fuel (one unit per consumed character) can
never run out. -/
def percentTokens (cs : List Char) : List (Char ⊕ Nat) :=
  percentTokensAux cs.length cs

/-- UTF-8 decoding of a byte run; undecodable bytes become U+FFFD
(Python `bytes.decode('utf-8', errors='replace')`, one replacement per
offending byte). -/
def utf8DecodeAux : Nat → List Nat → List Char
  | 0, _ => []
  | _, [] => []
  | fuel + 1, b :: rest =>
    if b < 128 then
      Char.ofNat b :: utf8DecodeAux fuel rest
    else if 192 ≤ b ∧ b < 224 then
      match rest with
      | c1 :: rest2 =>
        if 128 ≤ c1 ∧ c1 < 192 then
          Char.ofNat ((b - 192) * 64 + (c1 - 128)) :: utf8DecodeAux fuel rest2
        else Char.ofNat 0xFFFD :: utf8DecodeAux fuel rest
      | [] => [Char.ofNat 0xFFFD]
    else if 224 ≤ b ∧ b < 240 then
      match rest with
      | c1 :: c2 :: rest2 =>
        if (128 ≤ c1 ∧ c1 < 192) ∧ (128 ≤ c2 ∧ c2 < 192) then
          Char.ofNat ((b - 224) * 4096 + (c1 - 128) * 64 + (c2 - 128)) :: utf8DecodeAux fuel rest2
        else Char.ofNat 0xFFFD :: utf8DecodeAux fuel rest
      | _ => Char.ofNat 0xFFFD :: utf8DecodeAux fuel rest
    else if 240 ≤ b ∧ b < 248 then
      match rest with
      | c1 :: c2 :: c3 :: rest2 =>
        if (128 ≤ c1 ∧ c1 < 192) ∧ (128 ≤ c2 ∧ c2 < 192) ∧ (128 ≤ c3 ∧ c3 < 192) then
          Char.ofNat ((b - 240) * 262144 + (c1 - 128) * 4096 + (c2 - 128) * 64 + (c3 - 128))
            :: utf8DecodeAux fuel rest2
        else Char.ofNat 0xFFFD :: utf8DecodeAux fuel rest
      | _ => Char.ofNat 0xFFFD :: utf8DecodeAux fuel rest
    else Char.ofNat 0xFFFD :: utf8DecodeAux fuel rest

/-- Decoder entry point; the fuel (one unit per consumed byte) can never
run out. -/
def utf8DecodeBytes (bs : List Nat) : List Char :=
  utf8DecodeAux bs.length bs

/-- Split off the leading run of decoded bytes. -/
def splitByteRun : List (Char ⊕ Nat) → List Nat × List (Char ⊕ Nat)
  | Sum.inr b :: rest =>
    let p := splitByteRun rest
    (b :: p.1, p.2)
  | l => ([], l)

/-- Reassemble the token stream; the fuel is an upper bound on the number of
steps (each step consumes at least one token). -/
def unquoteAux : Nat → List (Char ⊕ Nat) → List Char
  | 0, _ => []
  | _, [] => []
  | fuel + 1, Sum.inl c :: rest => c :: unquoteAux fuel rest
  | fuel + 1, Sum.inr b :: rest =>
    let p := splitByteRun rest
    utf8DecodeBytes (b :: p.1) ++ unquoteAux fuel p.2

/-- `urllib.parse.unquote` model. -/
def pyUnquote (cs : List Char) : List Char :=
  let toks := percentTokens cs
  unquoteAux toks.length toks

/-! ## `html.unescape` model

Decimal (`&#n;`) and hexadecimal (`&#xh;`) character references and the
five predefined named entities are decoded; this models the part of the
stdlib function exercised by the repository (references always carry the
terminating semicolon there). -/

/-- Try to read one character reference directly after a `&`; returns the
decoded character and the number of characters consumed after the `&`. -/
def parseCharRef (cs : List Char) : Option (Char × Nat) :=
  match cs with
  | c :: rest =>
    if c.toNat = 35 then
      match rest with
      | x :: rest2 =>
        if x.toNat = 120 ∨ x.toNat = 88 then
          let ds := rest2.takeWhile (fun d => (hexVal d).isSome)
          let after := rest2.drop ds.length
          if ds ≠ [] ∧ after.headD (Char.ofNat 0) = Char.ofNat 59 then
            some (Char.ofNat (ds.foldl (fun acc d => acc * 16 + (hexVal d).getD 0) 0),
                  2 + ds.length + 1)
          else none
        else
          let ds := rest.takeWhile (fun d => 48 ≤ d.toNat ∧ d.toNat ≤ 57)
          let after := rest.drop ds.length
          if ds ≠ [] ∧ after.headD (Char.ofNat 0) = Char.ofNat 59 then
            some (Char.ofNat (ds.foldl (fun acc d => acc * 10 + (d.toNat - 48)) 0),
                  1 + ds.length + 1)
          else none
      | [] => none
    else if cs.take 4 = "amp;".data then some (Char.ofNat 38, 4)
    else if cs.take 3 = "lt;".data then some (Char.ofNat 60, 3)
    else if cs.take 3 = "gt;".data then some (Char.ofNat 62, 3)
    else if cs.take 5 = "quot;".data then some (Char.ofNat 34, 5)
    else if cs.take 5 = "apos;".data then some (Char.ofNat 39, 5)
    else none
  | [] => none

/-- One pass over the text; the fuel bounds the number of steps. -/
def htmlUnescapeAux : Nat → List Char → List Char
  | 0, cs => cs
  | _, [] => []
  | fuel + 1, c :: rest =>
    if c.toNat = 38 then
      match parseCharRef rest with
      | some (ch, n) => ch :: htmlUnescapeAux fuel (rest.drop n)
      | none => c :: htmlUnescapeAux fuel rest
    else c :: htmlUnescapeAux fuel rest

/-- `html.unescape` model. -/
def htmlUnescape (cs : List Char) : List Char :=
  htmlUnescapeAux cs.length cs

/-! ## Encoders and base64 (`str.encode`, `base64.b64decode` models) -/

/-- UTF-8 encoding of one character. -/
def utf8Bytes (c : Char) : List Nat :=
  let n := c.toNat
  if n < 128 then [n]
  else if n < 2048 then [192 + n / 64, 128 + n % 64]
  else if n < 65536 then [224 + n / 4096, 128 + n / 64 % 64, 128 + n % 64]
  else [240 + n / 262144, 128 + n / 4096 % 64, 128 + n / 64 % 64, 128 + n % 64]

/-- Python `str.encode(encoding)` for the codecs reachable in
`DataURLFile.__init__` ('ascii', 'utf8'/'utf-8', 'iso8859-1'); `none`
models a raised `UnicodeEncodeError` / `LookupError`. -/
def pyEncode (encoding : String) (cs : List Char) : Option (List Nat) :=
  if encoding = "ascii" then
    if cs.all (fun c => c.toNat < 128) then some (cs.map Char.toNat) else none
  else if encoding = "utf8" ∨ encoding = "utf-8" then
    some (cs.foldr (fun c acc => utf8Bytes c ++ acc) [])
  else if encoding = "iso8859-1" then
    if cs.all (fun c => c.toNat < 256) then some (cs.map Char.toNat) else none
  else none

/-- Base64 alphabet value of a character. -/
def b64CharVal (c : Char) : Option Nat :=
  let n := c.toNat
  if 65 ≤ n ∧ n ≤ 90 then some (n - 65)
  else if 97 ≤ n ∧ n ≤ 122 then some (n - 97 + 26)
  else if 48 ≤ n ∧ n ≤ 57 then some (n - 48 + 52)
  else if n = 43 then some 62
  else if n = 47 then some 63
  else none

/-- Decode a list of 6-bit values to bytes (a trailing group of two or three
values yields one or two bytes, as after stripping `=` padding). -/
def b64Quads : List Nat → List Nat
  | a :: b :: c :: d :: rest =>
    (a * 4 + b / 16) :: (b % 16 * 16 + c / 4) :: (c % 4 * 64 + d) :: b64Quads rest
  | [a, b, c] => [a * 4 + b / 16, b % 16 * 16 + c / 4]
  | [a, b] => [a * 4 + b / 16]
  | _ => []

/-- Python `base64.b64decode` model: non-alphabet characters other than `=`
are discarded, the total of data and padding characters must be a multiple
of four, and a group of data characters congruent to 1 mod 4 is an error
(`binascii.Error`, modelled as `none`). -/
def b64decode (cs : List Char) : Option (List Nat) :=
  if ¬ cs.all (fun c => c.toNat < 128) then none
  else
    let ds := cs.filterMap b64CharVal
    let pads := (cs.filter (fun c => c.toNat = 61)).length
    if (ds.length + pads) % 4 ≠ 0 ∨ ds.length % 4 = 1 then none
    else some (b64Quads ds)

/-! ## The data-URL regular expression

`DATA_URL_REGEX = re.compile("data:(?P<mime_type>[^;,\"']+/[^;,\"']+)?"
                             "(?P<parameters>(;[^;,\"']*)*),")`
applied with `re.match`.  Both character classes exclude `;`, `,`, `"` and
`'`.  Since neither the mime type nor a parameter may contain a comma, a
match always ends at the first comma after `data:`; the mime type, being
unable to contain a semicolon, spans exactly the characters before the
first semicolon (or all of them), and the parameter group the rest.  The
mime-type group matches `[^;,"']+/[^;,"']+` anchored on that span, which
holds exactly when the span is clean and has a `/` at an interior
position; the parameter group `(;[^;,"']*)*` matches its span exactly when
the span is empty or starts with `;` and is free of `,`, `"`, `'`. -/

/-- The character class `[^;,"']` of `DATA_URL_REGEX`. -/
def isDataUrlChar (c : Char) : Bool :=
  c.toNat ≠ 59 && c.toNat ≠ 44 && c.toNat ≠ 34 && c.toNat ≠ 39

/-- Anchored match of `[^;,"']+/[^;,"']+` (the `mime_type` group). -/
def matchesMimeType (cs : List Char) : Bool :=
  cs.all isDataUrlChar &&
    match cs with
    | [] => false
    | _ :: rest => rest.dropLast.contains (Char.ofNat 47)

/-- Anchored match of `(;[^;,"']*)*` (the `parameters` group). -/
def matchesParameters (cs : List Char) : Bool :=
  cs.isEmpty ||
    (decide (cs.headD (Char.ofNat 0) = Char.ofNat 59) &&
      cs.all (fun c => c.toNat ≠ 44 && c.toNat ≠ 34 && c.toNat ≠ 39))

/-- Result of `DATA_URL_REGEX.match`: the two named groups and
`match.end()` in characters. -/
structure RegexMatch where
  mime_type : Option (List Char)
  parameters : List Char
  matchEnd : Nat
deriving Repr, DecidableEq

/-- `DATA_URL_REGEX.match(data)`. -/
def reMatch (cs : List Char) : Option RegexMatch :=
  if cs.take 5 = "data:".data then
    let rest := cs.drop 5
    match rest.findIdx? (fun c => c.toNat = 44) with
    | none => none
    | some k =>
      let head := rest.take k
      let p := head.findIdx (fun c => c.toNat = 59)
      let mimePart := head.take p
      let paramPart := head.drop p
      if (mimePart.isEmpty || matchesMimeType mimePart) && matchesParameters paramPart then
        some ⟨if mimePart.isEmpty then none else some mimePart, paramPart, 5 + k + 1⟩
      else none
  else none

/-! ## `encodings.search_function` model (Python stdlib)

Normalizes the requested name like `encodings.normalize_encoding` (runs of
characters that are not alphanumeric or `.` collapse to `_`) and resolves
it through a table of the stdlib aliases relevant to this repository,
returning the canonical codec name. -/

/-- `encodings.normalize_encoding` on an already lowercased string. -/
def encodingsNormalizeAux : Nat → List Char → List Char
  | 0, _ => []
  | _, [] => []
  | fuel + 1, c :: rest =>
    if c.isAlphanum ∨ c.toNat = 46 then c :: encodingsNormalizeAux fuel rest
    else
      Char.ofNat 95 ::
        encodingsNormalizeAux fuel (rest.dropWhile (fun d => !(d.isAlphanum ∨ d.toNat = 46)))

/-- Normalization entry point; the fuel (one unit per consumed character)
can never run out. -/
def encodingsNormalize (cs : List Char) : List Char :=
  encodingsNormalizeAux cs.length cs

/-- `encodings.search_function`, returning the codec's canonical `.name`. -/
def encodings_search_function (s : String) : Option String :=
  let n := String.mk (encodingsNormalize (s.data.map Char.toLower))
  if n = "utf_8" ∨ n = "utf8" ∨ n = "utf" ∨ n = "u8" then some "utf-8"
  else if n = "ascii" ∨ n = "us_ascii" ∨ n = "646" ∨ n = "us" then some "ascii"
  else if n = "latin_1" ∨ n = "latin1" ∨ n = "latin" ∨ n = "l1" ∨ n = "iso_8859_1"
      ∨ n = "iso8859_1" ∨ n = "8859" ∨ n = "cp819" then some "iso8859-1"
  else none

/-! ## `DataURLFile` (html.py) -/

/-- The attributes of a constructed `DataURLFile`, together with the bytes
handed to the underlying `io.BytesIO`. -/
structure DataURLFile where
  mime_type : String
  valid : Bool
  encoding : String
  is_base64 : Bool
  content : List Nat
deriving Repr, DecidableEq

/-- The body of the parameter loop of `DataURLFile.__init__` acting on the
already stripped and lowercased token: handle the bare `utf-8`/`utf8`
tokens, then `charset=value` pairs through `encodings.search_function`. -/
def apply_parameter_core (enc : String) (parameter : List Char) : String :=
  if parameter = "utf-8".data ∨ parameter = "utf8".data then "utf8"
  else if ¬ parameter.contains (Char.ofNat 61) then enc
  else
    let key := parameter.takeWhile (fun c => c.toNat ≠ 61)
    let value := (parameter.dropWhile (fun c => c.toNat ≠ 61)).drop 1
    if pyStripChars key ≠ "charset".data then enc
    else
      let v := pyStripChars value
      let enc1 := if v = "us-ascii".data then "ascii" else enc
      match encodings_search_function (String.mk v) with
      | some nm => nm
      | none => enc1

/-- One step of the parameter loop: `parameter = parameter.strip().lower()`
followed by the body above. -/
def apply_parameter (enc : String) (raw : List Char) : String :=
  apply_parameter_core enc ((pyStripChars raw).map Char.toLower)

/-- `urllib.parse.unquote(html.unescape(data_url or ""))`. -/
def preprocessDataURL (s : String) : List Char :=
  pyUnquote (htmlUnescape s.data)

/-- `DataURLFile.__init__`; `none` models an uncaught exception
(`binascii.Error` from base64, `UnicodeEncodeError`/`LookupError` from
encoding the payload). -/
def dataURLInit (data_url : Option String) : Option DataURLFile :=
  let data := preprocessDataURL (data_url.getD "")
  match reMatch data with
  | none =>
    some { mime_type := "text/plain", valid := false, encoding := "ascii",
           is_base64 := false, content := [] }
  | some m =>
    let mime_type := match m.mime_type with
      | some mt => String.mk mt
      | none => "text/plain"
    let is_base64 := if m.parameters.isEmpty then false
                     else endsWithList m.parameters ";base64".data
    let encoding := if m.parameters.isEmpty then "ascii"
                    else (splitSemicolons m.parameters).foldl apply_parameter "ascii"
    let payload := data.drop m.matchEnd
    match (if is_base64 then b64decode payload else pyEncode encoding payload) with
    | none => none
    | some bytes =>
      some { mime_type := mime_type, valid := false, encoding := encoding,
             is_base64 := is_base64, content := bytes }


/-! ## HTML start-tag candidate discovery (`HTMLDataURLParser`) -/

/-- `(line, offset)` pair as reported by `HTMLParser.getpos` (1-based line,
0-based character offset). -/
structure LineOffset where
  line : Nat
  offset : Nat
deriving Repr, DecidableEq

/-- A candidate data URL found while feeding the HTML tokenizer.  The
source field `attribute` is called `attr_name` here because `attribute` is
a reserved word in Lean. -/
structure EmbeddedFileCandidate where
  original_url : String
  attr_name : String
  start : LineOffset
  next : Option LineOffset
deriving Repr, DecidableEq

/-- Insertion into a Python `dict` built by `dict(attrs)`: the first
occurrence fixes the position, the last occurrence the value. -/
def pyDictInsert (acc : List (String × String)) (kv : String × String) :
    List (String × String) :=
  if acc.any (fun p => p.1 = kv.1) then
    acc.map (fun p => if p.1 = kv.1 then (p.1, kv.2) else p)
  else acc ++ [kv]

/-- `dict(attrs)` as an ordered association list. -/
def pyDict (attrs : List (String × String)) : List (String × String) :=
  attrs.foldl pyDictInsert []

/-- `dict.get(key, "")`. -/
def pyDictGet (d : List (String × String)) (key : String) : String :=
  match d.find? (fun p => p.1 = key) with
  | some p => p.2
  | none => ""

/-- `HTMLDataURLParser._update_end_offset`: close the most recent open
candidate at the current position unless that equals its start. -/
def update_end_offset (files : List EmbeddedFileCandidate) (pos : LineOffset) :
    List EmbeddedFileCandidate :=
  match files.getLast? with
  | none => files
  | some file =>
    if file.next.isSome || pos = file.start then files
    else files.dropLast ++ [{ file with next := some pos }]

/-- `value.find(',')` (Python `str.find`: `-1` when absent). -/
def pyFindComma (cs : List Char) : Int :=
  match cs.findIdx? (fun c => c.toNat = 44) with
  | some i => (i : Int)
  | none => -1

/-- The skip condition of `handle_starttag`:
`comma < 0 or comma + 1 >= len(value)`. -/
def should_skip_value (value : String) : Bool :=
  let comma := pyFindComma value.data
  decide (comma < 0) || decide (comma + 1 ≥ (value.data.length : Int))

/-- `HTMLDataURLParser.handle_starttag`, acting on the candidate list
(`self.files`); `pos` is `self.getpos()`.  The loop's two `continue`
guards (`not value.startswith('data:')` and the skip condition) are
combined into the single condition under which a candidate is appended. -/
def handle_starttag (files : List EmbeddedFileCandidate) (pos : LineOffset)
    (attrs : List (String × String)) : List EmbeddedFileCandidate :=
  let files := update_end_offset files pos
  if ¬ attrs.any (fun p => p.2.data.take 5 = "data:".data) then files
  else
    let attributes := pyDict attrs
    attributes.foldl
      (fun fs av =>
        if av.2.data.take 5 = "data:".data ∧ should_skip_value av.2 = false then
          fs ++ [{ original_url := pyDictGet attributes ("data-savepage-" ++ av.1),
                   attr_name := av.1, start := pos, next := none }]
        else fs)
      files

/-- Spec-side notion for C9: the number of payload characters after the
first comma of the attribute value (0 when there is no comma). -/
def specPayloadLength (value : String) : Nat :=
  match value.data.findIdx? (fun c => c.toNat = 44) with
  | none => 0
  | some i => value.data.length - (i + 1)

/-- Spec-side notion for C3: the last parameter token, trimmed and
lowercased, equals `base64`. -/
def specLastTokenBase64 (params : List Char) : Bool :=
  ((pyStripChars ((splitSemicolons params).getLastD [])).map Char.toLower) = "base64".data

/-! ## SHA-256 (`hashlib.sha256(...).hexdigest()`, stdlib model) -/

/-- 32-bit right rotation. -/
def rotr32 (n x : Nat) : Nat :=
  ((x >>> n) ||| (x <<< (32 - n))) % 4294967296

/-- The SHA-256 round constants (decimal values of the standard table). -/
def sha256K : List Nat :=
  [1116352408, 1899447441, 3049323471, 3921009573, 961987163, 1508970993,
   2453635748, 2870763221, 3624381080, 310598401, 607225278, 1426881987,
   1925078388, 2162078206, 2614888103, 3248222580, 3835390401, 4022224774,
   264347078, 604807628, 770255983, 1249150122, 1555081692, 1996064986,
   2554220882, 2821834349, 2952996808, 3210313671, 3336571891, 3584528711,
   113926993, 338241895, 666307205, 773529912, 1294757372, 1396182291,
   1695183700, 1986661051, 2177026350, 2456956037, 2730485921, 2820302411,
   3259730800, 3345764771, 3516065817, 3600352804, 4094571909, 275423344,
   430227734, 506948616, 659060556, 883997877, 958139571, 1322822218,
   1537002063, 1747873779, 1955562222, 2024104815, 2227730452, 2361852424,
   2428436474, 2756734187, 3204031479, 3329325298]

/-- The SHA-256 initial hash state (decimal values). -/
def sha256H0 : List Nat :=
  [1779033703, 3144134277, 1013904242, 2773480762,
   1359893119, 2600822924, 528734635, 1541459225]

/-- Merkle–Damgård padding. -/
def sha256Pad (msg : List Nat) : List Nat :=
  let L := msg.length
  msg ++ 128 :: List.replicate ((56 + 64 - (L + 1) % 64) % 64) 0
      ++ ((List.range 8).map (fun i => L * 8 / 256 ^ (7 - i) % 256))

/-- Big-endian 32-bit words from bytes. -/
def bytesToWords : List Nat → List Nat
  | a :: b :: c :: d :: rest => (((a * 256 + b) * 256 + c) * 256 + d) :: bytesToWords rest
  | _ => []

/-- Message-schedule extension step. -/
def sha256ExtendStep (w : List Nat) (i : Nat) : Nat :=
  let w15 := w.getD (i - 15) 0
  let w2 := w.getD (i - 2) 0
  let s0 := (rotr32 7 w15) ^^^ (rotr32 18 w15) ^^^ (w15 >>> 3)
  let s1 := (rotr32 17 w2) ^^^ (rotr32 19 w2) ^^^ (w2 >>> 10)
  (w.getD (i - 16) 0 + s0 + w.getD (i - 7) 0 + s1) % 4294967296

/-- Extend 16 words to the 64-entry message schedule. -/
def sha256Schedule (w16 : List Nat) : List Nat :=
  (List.range 48).foldl (fun w i => w ++ [sha256ExtendStep w (i + 16)]) w16

/-- One compression round. -/
def sha256Round (w : List Nat) (st : List Nat) (i : Nat) : List Nat :=
  match st with
  | [a, b, c, d, e, f, g, hh] =>
    let S1 := rotr32 6 e ^^^ rotr32 11 e ^^^ rotr32 25 e
    let ch := (e &&& f) ^^^ ((4294967295 ^^^ e) &&& g)
    let temp1 := (hh + S1 + ch + sha256K.getD i 0 + w.getD i 0) % 4294967296
    let S0 := rotr32 2 a ^^^ rotr32 13 a ^^^ rotr32 22 a
    let maj := (a &&& b) ^^^ (a &&& c) ^^^ (b &&& c)
    let temp2 := (S0 + maj) % 4294967296
    [(temp1 + temp2) % 4294967296, a, b, c, (d + temp1) % 4294967296, e, f, g]
  | st => st

/-- Compress one 64-byte block into the hash state. -/
def sha256Compress (h : List Nat) (block : List Nat) : List Nat :=
  let w := sha256Schedule (bytesToWords block)
  let fin := (List.range 64).foldl (sha256Round w) h
  (h.zip fin).map (fun p => (p.1 + p.2) % 4294967296)

/-- Split the padded message into 64-byte blocks. -/
def chunks64Aux : Nat → List Nat → List (List Nat)
  | 0, _ => []
  | _, [] => []
  | fuel + 1, l => l.take 64 :: chunks64Aux fuel (l.drop 64)

/-- Lowercase hex digit. -/
def hexDigitChar (n : Nat) : Char :=
  if n < 10 then Char.ofNat (48 + n) else Char.ofNat (87 + n)

/-- Eight hex digits of a 32-bit word. -/
def word8Hex (w : Nat) : List Char :=
  (List.range 8).map (fun i => hexDigitChar (w / 16 ^ (7 - i) % 16))

/-- `hashlib.sha256(contents).hexdigest()` (stdlib model). -/
def sha256hex (msg : List Nat) : String :=
  let padded := sha256Pad msg
  let H := (chunks64Aux padded.length padded).foldl sha256Compress sha256H0
  String.mk (H.foldr (fun w acc => word8Hex w ++ acc) [])

/-! ## Path helpers for the HTML mount source -/

/-- Split a character list on `/`. -/
def splitSlashes : List Char → List (List Char)
  | [] => [[]]
  | c :: rest =>
    if c.toNat = 47 then [] :: splitSlashes rest
    else
      match splitSlashes rest with
      | h :: t => (c :: h) :: t
      | [] => [[c]]

/-- Join path components with `/`. -/
def joinSlash : List (List Char) → List Char
  | [] => []
  | [x] => x
  | x :: rest => x ++ Char.ofNat 47 :: joinSlash rest

/-- Modelled from the spec: `SQLiteIndex.normpath` (the index module is not
among the sources under study) — "Normalization collapses repeated
separators, resolves `.` and `..`, strips trailing separators, and yields
`/` for the root. `..` above root is clamped to root." -/
def normpath (p : String) : String :=
  let parts := (splitSlashes p.data).filter
    (fun s => !s.isEmpty && !(decide (s = [Char.ofNat 46])))
  let stack := parts.foldl
    (fun st part =>
      if part = [Char.ofNat 46, Char.ofNat 46] then st.dropLast else st ++ [part])
    ([] : List (List Char))
  String.mk (Char.ofNat 47 :: joinSlash stack)

/-- Python `path.rsplit("/", 1)` for a path with at least one slash (as
produced by `normpath`). -/
def rsplitSlash (p : String) : String × String :=
  let cs := p.data
  let name := (cs.reverse.takeWhile (fun c => c.toNat ≠ 47)).reverse
  (String.mk (cs.take (cs.length - name.length - 1)), String.mk name)

/-- The externally supplied path rewriter `self.transform`; the repository
default is the identity. -/
def transform (s : String) : String := s

/-- `mimetypes.guess_extension` (stdlib model, the entries relevant to the
repository's data). -/
def mimetypes_guess_extension (mime : String) : Option String :=
  if mime = "text/plain" then some ".txt"
  else if mime = "text/css" then some ".css"
  else if mime = "text/html" then some ".html"
  else if mime = "image/png" then some ".png"
  else if mime = "image/webp" then some ".webp"
  else if mime = "image/gif" then some ".gif"
  else if mime = "image/jpeg" then some ".jpg"
  else if mime = "image/svg+xml" then some ".svg"
  else if mime = "application/octet-stream" then some ".bin"
  else none

/-- The extension part of `os.path.splitext` (stdlib model): the suffix from
the last dot of the basename, unless the basename consists of leading dots
only up to it. -/
def splitextExt (p : String) : String :=
  let base := (p.data.reverse.takeWhile (fun c => c.toNat ≠ 47)).reverse
  match base.reverse.findIdx? (fun c => c.toNat = 46) with
  | none => ""
  | some j =>
    let i := base.length - 1 - j
    if (base.take i).any (fun c => c.toNat ≠ 46) then String.mk (base.drop i) else ""

/-! ## HTML mount source rows and `open` -/

/-- The 15-column row tuple produced by `HTMLMountSource._convert_to_row`. -/
structure HtmlRow where
  path : String
  name : String
  header_offset : Nat
  data_offset : Nat
  size : Nat
  mtime : Nat
  mode : Nat
  type_tag : Nat
  linkname : String
  uid : Nat
  gid : Nat
  is_tar : Bool
  is_sparse : Bool
  is_generated : Bool
  recursion_depth : Nat
deriving Repr, DecidableEq

/-- Number of UTF-8 bytes of one character (`TextIOWrapper` positions are
byte based while reads count characters). -/
def utf8CharLen (c : Char) : Nat := (utf8Bytes c).length

/-- Position the text stream at a byte offset: skip characters until their
cumulative encoded size reaches the target. -/
def dropToByteAux : Nat → List Char → Nat → List Char
  | 0, cs, _ => cs
  | _, cs, 0 => cs
  | _, [], _ => []
  | fuel + 1, c :: cs, b => dropToByteAux fuel cs (b - utf8CharLen c)

/-- `seek(start)` followed by `read(n)` (n characters) on the text stream. -/
def readSpanChars (doc : List Char) (start n : Nat) : List Char :=
  (dropToByteAux doc.length doc start).take n

/-- `HTMLMountSource._open_with_span`: an empty `DataURLFile()` for an
empty span, otherwise `DataURLFile(read(end - start))` after seeking to
`start`; note that `end - start` is a byte difference used as a character
count, exactly as in the code. -/
def open_with_span (doc : List Char) (spanStart spanEnd : Nat) : Option DataURLFile :=
  if spanEnd ≤ spanStart then dataURLInit none
  else dataURLInit (some (String.mk (readSpanChars doc spanStart (spanEnd - spanStart))))

/-- `HTMLMountSource._convert_to_row` for an `EmbeddedFile` with the given
span and `original_url`; `none` models an exception escaping from
`DataURLFile`. -/
def html_convert_to_row (doc : List Char) (mtime : Nat) (spanStart spanEnd : Nat)
    (original_url : String) : Option HtmlRow :=
  match open_with_span doc spanStart spanEnd with
  | none => none
  | some url_file =>
    let contents := url_file.content
    let extension := if endsWithList url_file.mime_type.data "/javascript".data then ".js"
                     else (mimetypes_guess_extension url_file.mime_type).getD ""
    let vp1 := if original_url = "" ∨ original_url.data.take 5 = "data:".data then
                 sha256hex contents ++ extension
               else original_url
    let vp2 := if (splitextExt vp1).data.map Char.toLower ≠ extension.data.map Char.toLower then
                 vp1 ++ extension
               else vp1
    let pn := rsplitSlash (normpath (transform vp2))
    some { path := pn.1, name := pn.2, header_offset := spanStart, data_offset := spanEnd,
           size := contents.length, mtime := mtime, mode := 0o100777,
           type_tag := 0, linkname := "", uid := 0, gid := 0,
           is_tar := false, is_sparse := false, is_generated := false, recursion_depth := 0 }

/-- `HTMLMountSource.open`: the span is recovered from the row's userdata
(`offsetheader` and `offset` hold columns 2 and 3 of the row; the index
storage layer is modelled from the spec, §3 "for HTML: byte span
`[start, end)` in the source document"). -/
def html_open_row (doc : List Char) (row : HtmlRow) : Option DataURLFile :=
  open_with_span doc row.header_offset row.data_offset


/-! ## AR archive parsing (`ar.py`) -/

/-- ASCII bytes of a string (for magic values and test archives). -/
def asc (s : String) : List Nat := s.data.map Char.toNat

/-- ASCII digit bytes. -/
def isDigitByte (b : Nat) : Bool := 48 ≤ b && b ≤ 57

/-- Python bytes whitespace (for `bytes.strip()`). -/
def isSpaceByte (b : Nat) : Bool :=
  b = 32 || b = 9 || b = 10 || b = 13 || b = 11 || b = 12

/-- `bytes.strip()`. -/
def stripBytes (bs : List Nat) : List Nat :=
  ((bs.dropWhile isSpaceByte).reverse.dropWhile isSpaceByte).reverse

/-- `bytes.rstrip(b' \x00')`. -/
def rstripSpaceNul (bs : List Nat) : List Nat :=
  (bs.reverse.dropWhile (fun b => b = 32 || b = 0)).reverse

/-- `bytes.strip(b'\0')`. -/
def stripNul (bs : List Nat) : List Nat :=
  ((bs.dropWhile (fun b => b = 0)).reverse.dropWhile (fun b => b = 0)).reverse

/-- `_DECIMAL_NUMBER_REGEX.fullmatch`, i.e. `[0-9]* *` anchored: a run of
digits followed by a run of spaces (note: digits first, spaces after). -/
def decimal_number_regex_fullmatch (bs : List Nat) : Bool :=
  (bs.dropWhile isDigitByte).all (fun b => b = 32)

/-- Digit value in the given base (Python `int(s, base)` accepts only
digits below the base, for the bases 8 and 10 used here). -/
def digitVal (base b : Nat) : Option Nat :=
  if isDigitByte b ∧ b - 48 < base then some (b - 48) else none

/-- Python `int(bytes, base)` on the digit strings occurring here
(surrounding ASCII whitespace allowed; sign or underscores do not occur);
`none` models `ValueError`. -/
def pyIntBytes (bs : List Nat) (base : Nat) : Option Nat :=
  let s := stripBytes bs
  if s.isEmpty then none
  else s.foldl (fun acc b =>
    match acc, digitVal base b with
    | some v, some d => some (v * base + d)
    | _, _ => none) (some 0)

/-- `parse_int` from `_parse_ar_archive`: reject anything that is not
digits followed by spaces, return the default for an empty stripped field,
otherwise convert in the given base. -/
def parse_int (field_bytes : List Nat) (base : Nat) (default : Nat) : Option Nat :=
  if ¬ decimal_number_regex_fullmatch field_bytes then none
  else
    let field_str := stripBytes field_bytes
    if field_str.isEmpty then some default else pyIntBytes field_str base

/-- `fileObject.read(n)` of a stream at an explicit position. -/
def readBytes (fileBytes : List Nat) (pos n : Nat) : List Nat :=
  (fileBytes.drop pos).take n

/-- The `long_names` variable: raw bytes for thin archives, the split list
for regular archives. -/
inductive LongNames where
  | thin (raw : List Nat)
  | gnuList (entries : List (List Nat))
deriving Repr, DecidableEq

/-- Python truthiness of `long_names` (`None`, empty bytes and the empty
list are falsy). -/
def lnTruthy : Option LongNames → Bool
  | none => false
  | some (LongNames.thin raw) => !raw.isEmpty
  | some (LongNames.gnuList entries) => !entries.isEmpty

/-- `int(name[1:])` for an all-digit byte string. -/
def digitsVal (ds : List Nat) : Nat :=
  ds.foldl (fun acc b => acc * 10 + (b - 48)) 0

/-- `bytes.find(b'/\n', index)`: first occurrence at or after `index`,
`-1` when absent. -/
def findSlashNlFrom (raw : List Nat) (index : Nat) : Int :=
  match (List.range raw.length).find?
      (fun j => index ≤ j ∧ j + 1 < raw.length ∧ raw.getD j 0 = 47 ∧ raw.getD (j + 1) 0 = 10) with
  | some j => (j : Int)
  | none => -1

/-- `get_long_file_name` from `_parse_ar_archive`.  The mixed combinations
(a byte table without `is_thin` and vice versa) cannot arise; they fall
through to `name` like the source's final `return name`. -/
def get_long_file_name (is_thin : Bool) (long_names : Option LongNames)
    (name : List Nat) : List Nat :=
  if lnTruthy long_names && decide (name.headD 0 = 47) && !(name.drop 1).isEmpty
      && (name.drop 1).all isDigitByte then
    let index := digitsVal (name.drop 1)
    match long_names with
    | some (LongNames.gnuList entries) =>
      if index < entries.length ∧ is_thin = false then entries.getD index [] else name
    | some (LongNames.thin raw) =>
      if index < raw.length ∧ is_thin = true then
        let e := findSlashNlFrom raw index
        if (index : Int) ≤ e then (raw.take e.toNat).drop index else name
      else name
    | none => name
  else name

/-- One parsed archive member, mirroring the `tarfile.TarInfo` fields set
by `_parse_ar_archive` (`isSym` stands for `type == tarfile.SYMTYPE`). -/
structure ArTarInfo where
  offset : Nat
  offset_data : Nat
  size : Int
  mtime : Nat
  uid : Nat
  gid : Nat
  mode : Nat
  name : List Nat
  linkname : List Nat
  isSym : Bool
deriving Repr, DecidableEq

/-- The retroactive rewrite applied to every previously emitted member
after the GNU `//` table has been read: thin archives store the resolution
in `linkname`, regular archives replace `name`. -/
def retroRewrite (is_thin : Bool) (ln : Option LongNames) (f : ArTarInfo) : ArTarInfo :=
  if is_thin then { f with linkname := get_long_file_name is_thin ln f.name }
  else { f with name := get_long_file_name is_thin ln f.name }

/-- `bytes.split(b'/\n')`. -/
def splitSlashNl : List Nat → List (List Nat)
  | [] => [[]]
  | 47 :: 10 :: rest => [] :: splitSlashNl rest
  | b :: rest =>
    match splitSlashNl rest with
    | h :: t => (b :: h) :: t
    | [] => [[b]]

/-- Reading the GNU `//` long-name table at stream position `offset`:
returns the new `long_names` value and the stream position afterwards
(thin archives keep the raw bytes; regular archives split on `/\n`, drop a
trailing one-byte `\x60`/`\x0a` sentinel of even-sized tables, and skip
one pad byte after odd-sized tables). -/
def processGnuTable (fileBytes : List Nat) (offset size : Nat) (is_thin : Bool) :
    Option LongNames × Nat :=
  let raw := readBytes fileBytes offset size
  if is_thin then (some (LongNames.thin raw), offset + raw.length)
  else
    let entries := splitSlashNl raw
    if size % 2 = 0 then
      let entries2 :=
        if !entries.isEmpty &&
            (decide (entries.getLastD [] = [96]) || decide (entries.getLastD [] = [10]))
        then entries.dropLast else entries
      (some (LongNames.gnuList entries2), offset + raw.length)
    else (some (LongNames.gnuList entries), offset + raw.length + size % 2)

/-- Unpack and validate one 60-byte header: terminator check, name rstrip,
the five `parse_int` fields; `none` models the exception turned into
`RatarmountError` by the `except` block. -/
def parseHeaderFields (header : List Nat) :
    Option (List Nat × Nat × Nat × Nat × Nat × Nat) :=
  if ¬ (header.drop 58 = [96, 10]) then none
  else
    let name := rstripSpaceNul (header.take 16)
    match parse_int ((header.drop 16).take 12) 10 0, parse_int ((header.drop 28).take 6) 10 0,
          parse_int ((header.drop 34).take 6) 10 0, parse_int ((header.drop 40).take 8) 8 0o660,
          parse_int ((header.drop 48).take 10) 10 0 with
    | some mt, some uid, some gid, some md, some sz => some (name, mt, uid, gid, md, sz)
    | _, _, _, _, _ => none

/-- The record construction shared by the plain and BSD-long-name paths:
resolve through the long-name table when one is present (thin: link
target and `SYMTYPE`; regular: name), then strip NUL padding. -/
def emitRecord (is_thin : Bool) (long_names : Option LongNames)
    (header_offset offset_data : Nat) (size : Int) (mt uid gid mode : Nat)
    (rawName : List Nat) : ArTarInfo :=
  let resolvedName :=
    if lnTruthy long_names ∧ is_thin = false then get_long_file_name is_thin long_names rawName
    else rawName
  { offset := header_offset, offset_data := offset_data, size := size, mtime := mt,
    uid := uid, gid := gid, mode := mode,
    name := stripNul resolvedName,
    linkname := if lnTruthy long_names ∧ is_thin = true then
                  get_long_file_name is_thin long_names rawName
                else [],
    isSym := lnTruthy long_names && is_thin }

/-- The `while` loop of `_parse_ar_archive` with fuel; the loop advances by
at least 60 bytes per iteration, so `fileBytes.length + 1` units never run
out. -/
def parseLoop (fileBytes : List Nat) : Nat → Nat → Bool → Option LongNames →
    List ArTarInfo → Option (List ArTarInfo)
  | 0, _, _, _, _ => none
  | fuel + 1, pos, is_thin, long_names, files =>
    let header := readBytes fileBytes pos 60
    if header.isEmpty then some files
    else if header.length < 60 then none
    else
      let offset := pos + 60
      match parseHeaderFields header with
      | none => none
      | some (name0, mt, uid, gid, md, sz) =>
        let mode := if is_thin then md ||| 0o100000 ||| 0o120000 else md ||| 0o100000
        if name0 = [47] then
          -- POSIX symbol table: skip body and padding, emit nothing.
          parseLoop fileBytes fuel (offset + sz + sz % 2) is_thin long_names files
        else if name0 = [47, 47] then
          -- GNU long-name table: read it, rewrite previous members, emit nothing.
          let r := processGnuTable fileBytes offset sz is_thin
          parseLoop fileBytes fuel r.2 is_thin r.1 (files.map (retroRewrite is_thin r.1))
        else if name0.take 3 = [35, 49, 47] then
          -- BSD long name: the body starts with the real name.
          match pyIntBytes (name0.drop 3) 10 with
          | none => none
          | some name_size =>
            let nm := readBytes fileBytes offset name_size
            if nm.length ≠ name_size then none
            else
              let info := emitRecord is_thin long_names pos (offset + name_size)
                ((sz : Int) - (name_size : Int)) mt uid gid mode nm
              if is_thin then parseLoop fileBytes fuel offset is_thin long_names (files ++ [info])
              else parseLoop fileBytes fuel (offset + sz + sz % 2) is_thin long_names (files ++ [info])
        else
          let info := emitRecord is_thin long_names pos offset (sz : Int) mt uid gid mode name0
          if is_thin then parseLoop fileBytes fuel offset is_thin long_names (files ++ [info])
          else parseLoop fileBytes fuel (offset + sz + sz % 2) is_thin long_names (files ++ [info])

/-- `_parse_ar_archive`: check the magic and run the loop (`none` models a
raised `RatarmountError` or `ValueError`). -/
def parse_ar_archive (fileBytes : List Nat) : Option (List ArTarInfo) :=
  let magic := readBytes fileBytes 0 8
  let is_thin := magic = asc "!<thin>\n"
  if magic ≠ asc "!<arch>\n" ∧ ¬ is_thin then none
  else parseLoop fileBytes (fileBytes.length + 1) 8 is_thin none []

/-! ## `ARMountSource.open` -/

/-- `stat.S_ISLNK`. -/
def S_ISLNK (mode : Nat) : Bool := mode &&& 0o170000 = 0o120000

/-- The part of a `FileInfo` consumed by `ARMountSource.open`: mode, size,
and the member's data offset carried in the index userdata (modelled from
the spec, §3: "for AR: header offset, data offset, size"). -/
structure ArFileInfo where
  size : Int
  mode : Nat
  data_offset : Nat
deriving Repr, DecidableEq

/-- The stencil `[offset, offset + size)` handed to
`RawStenciledFile`/`StenciledFile` by `_open_stencil`. -/
structure StencilRange where
  offset : Nat
  size : Int
deriving Repr, DecidableEq

/-- `ARMountSource.open`: symlinks refuse to open, everything else becomes
a stenciled reader over the member's byte range. -/
def ar_open (fileInfo : ArFileInfo) : Except String StencilRange :=
  if S_ISLNK fileInfo.mode then Except.error "Cannot read contents of symbolic link!"
  else Except.ok { offset := fileInfo.data_offset, size := fileInfo.size }

/-! ## Concrete archives for counterexamples and witnesses -/

/-- Right-pad a header field with spaces. -/
def padField (n : Nat) (bs : List Nat) : List Nat :=
  bs ++ List.replicate (n - bs.length) 32

/-- Build one 60-byte AR header record. -/
def mkArHeader (name mtime uid gid mode size : List Nat) : List Nat :=
  padField 16 name ++ padField 12 mtime ++ padField 6 uid ++ padField 6 gid ++
    padField 8 mode ++ padField 10 size ++ [96, 10]

/-- A thin archive with one member of recorded size 10 (the body lives
outside the archive, so the stream ends right after the header). -/
def thinArchiveExample : List Nat :=
  asc "!<thin>\n" ++ mkArHeader (asc "a") (asc "0") (asc "0") (asc "0") (asc "644") (asc "10")

/-- A regular archive with one member named `/99` followed by a GNU `//`
long-name table holding a single entry, so that index 99 is out of range. -/
def gnuOutOfRangeExample : List Nat :=
  asc "!<arch>\n" ++ mkArHeader (asc "/99") (asc "0") (asc "0") (asc "0") (asc "644") (asc "0")
    ++ mkArHeader (asc "//") (asc "0") (asc "0") (asc "0") (asc "644") (asc "3") ++ asc "a/\n"


/-! ## Concrete inputs used by counterexamples and witnesses -/

/-- The data URL of spec scenario 7 (the braces are written as escapes). -/
def cssUrlExample : String :=
  "data:text/css;utf8,body \x7b&#37;20font-family: Arial, sans-serif \x7d;"

/-- The regex match of `cssUrlExample` after preprocessing. -/
def cssMatchExample : RegexMatch :=
  { mime_type := some "text/css".data, parameters := ";utf8".data, matchEnd := 19 }

/-- The `DataURLFile` constructed from `cssUrlExample`. -/
def cssFileExample : DataURLFile :=
  { mime_type := "text/css", valid := false, encoding := "utf8", is_base64 := false,
    content := asc "body \x7b font-family: Arial, sans-serif \x7d;" }

/-- The `DataURLFile` constructed from `data:;base64,AAAA`. -/
def b64FileExample : DataURLFile :=
  { mime_type := "text/plain", valid := false, encoding := "ascii", is_base64 := true,
    content := [0, 0, 0] }

/-- A one-URL document for the HTML witnesses. -/
def htmlDocExample : List Char := "data:,abc".data

/-- The row produced for the span `[0, 9)` of `htmlDocExample`. -/
def htmlRowExample : HtmlRow :=
  { path := "", name := "x.txt", header_offset := 0, data_offset := 9,
    size := 3, mtime := 0, mode := 0o100777, type_tag := 0, linkname := "",
    uid := 0, gid := 0, is_tar := false, is_sparse := false,
    is_generated := false, recursion_depth := 0 }

/-- The single record parsed from `thinArchiveExample`. -/
def thinRecordExample : ArTarInfo :=
  { offset := 8, offset_data := 68, size := 10, mtime := 0, uid := 0, gid := 0,
    mode := 0o644 ||| 0o100000 ||| 0o120000, name := [97], linkname := [], isSym := false }

/-- The single record parsed from `gnuOutOfRangeExample`: its name is still
the placeholder `/99`. -/
def gnuOutOfRangeRecord : ArTarInfo :=
  { offset := 8, offset_data := 68, size := 0, mtime := 0, uid := 0, gid := 0,
    mode := 0o644 ||| 0o100000, name := asc "/99", linkname := [], isSym := false }

/-- The per-row span property of the amended claim C5. -/
def spanOk (fileBytes : List Nat) (f : ArTarInfo) : Prop :=
  f.offset < f.offset_data ∧ f.offset_data ≤ fileBytes.length ∧
    (f.offset_data - f.offset = 60 ∨
     ∃ N, f.offset_data - f.offset = 60 + N ∧
       (rstripSpaceNul ((readBytes fileBytes f.offset 60).take 16)).take 3 = [35, 49, 47] ∧
       pyIntBytes ((rstripSpaceNul ((readBytes fileBytes f.offset 60).take 16)).drop 3) 10
         = some N)

/-! # Theorems -/

/-! ## C1 -/

/-- C1, counterexample: decoding
`data:text/css;utf8,body {&#37;20font-family: Arial, sans-serif };` yields
`encoding == "utf8"`, not `"utf-8"` as the claim states (the code assigns
the literal `'utf8'`; the repository's own test asserts `'utf8'`). -/
theorem c1_encoding_counterexample :
    ¬ ((dataURLInit (some cssUrlExample)).map DataURLFile.encoding = some "utf-8")
  ∧ (dataURLInit (some cssUrlExample)).map DataURLFile.encoding = some "utf8" := by
  decide

/-- Helper: once the encoding is `"utf8"`, parameter tokens without an
equals sign keep it. -/
theorem foldl_apply_parameter_fixed :
    ∀ (tokens : List (List Char)),
      (∀ t ∈ tokens, ¬ ((pyStripChars t).map Char.toLower).contains (Char.ofNat 61)) →
      tokens.foldl apply_parameter "utf8" = "utf8" := by
  intro tokens
  induction tokens with
  | nil => intro _; rfl
  | cons t ts ih =>
    intro h
    have ht := h t (by simp)
    have hstep : apply_parameter "utf8" t = "utf8" := by
      unfold apply_parameter apply_parameter_core
      by_cases hc : (pyStripChars t).map Char.toLower = "utf-8".data ∨
          (pyStripChars t).map Char.toLower = "utf8".data
      · rw [if_pos hc]
      · rw [if_neg hc, if_pos (by simpa using ht)]
    simp only [List.foldl_cons, hstep]
    exact ih (fun u hu => h u (by simp [hu]))

/-- Helper: a token equal to `utf-8`/`utf8` (stripped, lowercased) sets the
encoding to `"utf8"`, and later tokens without `=` keep it. -/
theorem foldl_apply_parameter_utf8 :
    ∀ (tokens : List (List Char)) (enc : String),
      (∀ t ∈ tokens, ¬ ((pyStripChars t).map Char.toLower).contains (Char.ofNat 61)) →
      (∃ t ∈ tokens, (pyStripChars t).map Char.toLower = "utf-8".data ∨
                     (pyStripChars t).map Char.toLower = "utf8".data) →
      tokens.foldl apply_parameter enc = "utf8" := by
  intro tokens
  induction tokens with
  | nil => intro enc _ hex; simp at hex
  | cons t ts ih =>
    intro enc hno hex
    by_cases hutf : (pyStripChars t).map Char.toLower = "utf-8".data ∨
        (pyStripChars t).map Char.toLower = "utf8".data
    · have hstep : apply_parameter enc t = "utf8" := by
        unfold apply_parameter apply_parameter_core
        rw [if_pos hutf]
      simp only [List.foldl_cons, hstep]
      exact foldl_apply_parameter_fixed ts (fun u hu => hno u (by simp [hu]))
    · have hstep : apply_parameter enc t = enc := by
        unfold apply_parameter apply_parameter_core
        rw [if_neg hutf, if_pos]
        simpa using hno t (by simp)
      simp only [List.foldl_cons, hstep]
      refine ih enc (fun u hu => hno u (by simp [hu])) ?_
      rcases hex with ⟨u, hu, hcase⟩
      rcases List.mem_cons.mp hu with rfl | hu2
      · exact absurd hcase hutf
      · exact ⟨u, hu2, hcase⟩

/-- C1, amended: for every data URL whose parameter list contains a token
equal (after stripping and lowercasing) to `utf-8` or `utf8`, and none of
whose tokens contains `=` (no later `charset` override), the constructed
`DataURLFile` has `encoding == "utf8"` (the string `'utf8'`, not
`'utf-8'`); in particular the scenario-7 URL yields `"utf8"`. -/
theorem c1_utf8_parameter_sets_encoding (s : String) (m : RegexMatch) (f : DataURLFile)
    (hm : reMatch (preprocessDataURL s) = some m)
    (hne : m.parameters.isEmpty = false)
    (hutf : ∃ t ∈ splitSemicolons m.parameters,
        (pyStripChars t).map Char.toLower = "utf-8".data ∨
        (pyStripChars t).map Char.toLower = "utf8".data)
    (hnoeq : ∀ t ∈ splitSemicolons m.parameters,
        ¬ ((pyStripChars t).map Char.toLower).contains (Char.ofNat 61))
    (hf : dataURLInit (some s) = some f) :
    f.encoding = "utf8" := by
  simp only [dataURLInit, Option.getD_some, hm, hne, Bool.false_eq_true, if_false] at hf
  split at hf
  · exact absurd hf (by simp)
  · injection hf with hf
    rw [← hf]
    exact foldl_apply_parameter_utf8 (splitSemicolons m.parameters) "ascii" hnoeq hutf

/-- C1, witness: the amended theorem applied to the scenario-7 URL. -/
theorem c1_utf8_parameter_witness : cssFileExample.encoding = "utf8" :=
  c1_utf8_parameter_sets_encoding cssUrlExample cssMatchExample cssFileExample
    (by decide) (by decide) (by decide) (by decide) (by decide)

/-! ## C2 -/

/-- C2, counterexample: the 12-byte mtime-style field `" 1          "` has
its digit surrounded by whitespace on either side, yet `parse_int` rejects
it (`_DECIMAL_NUMBER_REGEX` is `[0-9]* *`: digits first, spaces after, so
leading whitespace fails the record). -/
theorem c2_parse_int_counterexample :
    parse_int (asc " 1          ") 10 0 = none := by decide

/-- Helper: a non-matching element survives `dropWhile`. -/
theorem mem_dropWhile_of_not (p : Nat → Bool) :
    ∀ {l : List Nat} {b : Nat}, b ∈ l → p b = false → b ∈ l.dropWhile p := by
  intro l
  induction l with
  | nil => intro b h _; cases h
  | cons x xs ih =>
    intro b hb hp
    rw [List.dropWhile_cons]
    split
    · rcases List.mem_cons.mp hb with rfl | h2
      · simp_all
      · exact ih h2 hp
    · exact hb

/-- Helper: `dropWhile` skips a prefix all of whose elements match. -/
theorem dropWhile_append_of_all (p : Nat → Bool) :
    ∀ (l₁ l₂ : List Nat), (∀ b ∈ l₁, p b = true) →
      (l₁ ++ l₂).dropWhile p = l₂.dropWhile p := by
  intro l₁
  induction l₁ with
  | nil => intro l₂ _; rfl
  | cons x xs ih =>
    intro l₂ h
    rw [List.cons_append, List.dropWhile_cons, if_pos (h x (by simp))]
    exact ih l₂ (fun b hb => h b (by simp [hb]))

/-- Helper: `dropWhile` keeps a list whose head does not match. -/
theorem dropWhile_eq_self_of_head (p : Nat → Bool) :
    ∀ {l : List Nat}, (∀ b ∈ l, p b = false) → l.dropWhile p = l := by
  intro l h
  cases l with
  | nil => rfl
  | cons x xs => rw [List.dropWhile_cons, if_neg (by simp [h x (by simp)])]

/-- Helper: digit bytes are not whitespace bytes. -/
theorem isSpaceByte_of_digit {b : Nat} (h : isDigitByte b = true) : isSpaceByte b = false := by
  simp only [isDigitByte, Bool.and_eq_true, decide_eq_true_eq] at h
  simp only [isSpaceByte, Bool.or_eq_false_iff, decide_eq_false_iff_not]
  omega

/-- Helper: stripping a digit run padded with trailing spaces yields the
digit run. -/
theorem stripBytes_digits_spaces (ds : List Nat) (n : Nat)
    (hd : ∀ b ∈ ds, isDigitByte b = true) (hne : ds ≠ []) :
    stripBytes (ds ++ List.replicate n 32) = ds := by
  unfold stripBytes
  have hds : ∀ b ∈ ds, isSpaceByte b = false := fun b hb => isSpaceByte_of_digit (hd b hb)
  have h1 : (ds ++ List.replicate n 32).dropWhile isSpaceByte = ds ++ List.replicate n 32 := by
    cases ds with
    | nil => exact absurd rfl hne
    | cons x xs =>
      rw [List.cons_append, List.dropWhile_cons, if_neg (by simp [hds x (by simp)])]
  rw [h1, List.reverse_append, List.reverse_replicate]
  rw [dropWhile_append_of_all isSpaceByte _ _
    (by intro b hb; simp only [List.mem_replicate] at hb; simp [hb.2, isSpaceByte])]
  rw [dropWhile_eq_self_of_head isSpaceByte (by intro b hb; exact hds b (List.mem_reverse.mp hb))]
  exact List.reverse_reverse ds

/-- Helper: folding valid digits over a `some` accumulator stays `some`. -/
theorem foldl_digitVal_isSome (base : Nat) :
    ∀ (l : List Nat) (v : Nat), (∀ b ∈ l, (digitVal base b).isSome = true) →
      (l.foldl (fun acc b =>
        match acc, digitVal base b with
        | some v, some d => some (v * base + d)
        | _, _ => none) (some v)).isSome = true := by
  intro l
  induction l with
  | nil => intro v _; rfl
  | cons x xs ih =>
    intro v h
    have hx := h x (by simp)
    rw [List.foldl_cons]
    cases hdx : digitVal base x with
    | none => rw [hdx] at hx; cases hx
    | some d => exact ih (v * base + d) (fun b hb => h b (by simp [hb]))

/-- Helper: `dropWhile isSpaceByte` deletes a run of spaces. -/
theorem dropWhile_space_replicate (m : Nat) :
    (List.replicate m 32).dropWhile isSpaceByte = [] := by
  have := dropWhile_append_of_all isSpaceByte (List.replicate m 32) [] (by
    intro b hb
    simp only [List.mem_replicate] at hb
    simp [isSpaceByte, hb.2])
  simpa using this

/-- C2, amended: a numeric field consisting of digits followed by trailing
spaces parses successfully; an all-space field yields the declared
default; a field containing a byte that is neither digit nor space fails;
and — contrary to the claim's "surrounded by whitespace on either side" —
a field with leading whitespace before a digit fails the record. -/
theorem c2_parse_int_amended :
    (∀ (ds : List Nat) (n base default : Nat), ds ≠ [] →
        (∀ b ∈ ds, isDigitByte b = true ∧ b - 48 < base) →
        (parse_int (ds ++ List.replicate n 32) base default).isSome = true)
  ∧ (∀ (n base default : Nat), parse_int (List.replicate n 32) base default = some default)
  ∧ (∀ (bs : List Nat) (base default b : Nat), b ∈ bs → isDigitByte b = false → b ≠ 32 →
        parse_int bs base default = none)
  ∧ (∀ (rest : List Nat) (base default b : Nat), b ∈ rest → isDigitByte b = true →
        parse_int (32 :: rest) base default = none) := by
  refine ⟨?_, ?_, ?_, ?_⟩
  · intro ds n base default hne hd
    have hregex : decimal_number_regex_fullmatch (ds ++ List.replicate n 32) = true := by
      unfold decimal_number_regex_fullmatch
      rw [dropWhile_append_of_all isDigitByte _ _ (fun b hb => (hd b hb).1)]
      rw [dropWhile_eq_self_of_head isDigitByte (by
        intro b hb
        simp only [List.mem_replicate] at hb
        simp [isDigitByte, hb.2])]
      simp [List.all_eq_true, List.mem_replicate]
    have hstrip : stripBytes (ds ++ List.replicate n 32) = ds :=
      stripBytes_digits_spaces ds n (fun b hb => (hd b hb).1) hne
    have hstrip0 : stripBytes ds = ds := by
      have := stripBytes_digits_spaces ds 0 (fun b hb => (hd b hb).1) hne
      simpa using this
    have hie : ds.isEmpty = false := by
      cases ds with
      | nil => exact absurd rfl hne
      | cons _ _ => rfl
    simp only [parse_int, pyIntBytes, hregex, hstrip, hstrip0, hie, not_true,
      Bool.false_eq_true, if_false]
    exact foldl_digitVal_isSome base ds 0 (by
      intro b hb
      simp [digitVal, (hd b hb).1, (hd b hb).2])
  · intro n base default
    have hregex : decimal_number_regex_fullmatch (List.replicate n 32) = true := by
      unfold decimal_number_regex_fullmatch
      rw [dropWhile_eq_self_of_head isDigitByte (by
        intro b hb
        simp only [List.mem_replicate] at hb
        simp [isDigitByte, hb.2])]
      simp [List.all_eq_true, List.mem_replicate]
    have hstrip : stripBytes (List.replicate n 32) = [] := by
      unfold stripBytes
      rw [dropWhile_space_replicate]
      simp
    simp only [parse_int, hregex, hstrip]
    rw [if_neg (by simp)]
    simp
  · intro bs base default b hb hbd hb32
    have hfm : decimal_number_regex_fullmatch bs = false := by
      unfold decimal_number_regex_fullmatch
      have hmem : b ∈ bs.dropWhile isDigitByte := mem_dropWhile_of_not isDigitByte hb hbd
      rw [Bool.eq_false_iff]
      intro hall
      rw [List.all_eq_true] at hall
      have := hall b hmem
      simp only [decide_eq_true_eq] at this
      exact hb32 this
    simp only [parse_int, hfm]
    rw [if_pos (by simp)]
  · intro rest base default b hb hbd
    have hfm : decimal_number_regex_fullmatch (32 :: rest) = false := by
      unfold decimal_number_regex_fullmatch
      have h1 : (32 :: rest).dropWhile isDigitByte = 32 :: rest := by
        rw [List.dropWhile_cons, if_neg (by simp [isDigitByte])]
      rw [h1, Bool.eq_false_iff]
      intro hall
      rw [List.all_eq_true] at hall
      have := hall b (by simp [hb])
      simp only [decide_eq_true_eq] at this
      simp only [isDigitByte, Bool.and_eq_true, decide_eq_true_eq] at hbd
      omega
    simp only [parse_int, hfm]
    rw [if_pos (by simp)]

/-- C2, witness: the amended theorem applied to concrete fields. -/
theorem c2_parse_int_witness :
    (parse_int ([52, 50] ++ List.replicate 1 32) 10 0).isSome = true
  ∧ parse_int (List.replicate 4 32) 8 432 = some 432
  ∧ parse_int [120] 10 0 = none
  ∧ parse_int (32 :: [49]) 10 0 = none :=
  ⟨c2_parse_int_amended.1 [52, 50] 1 10 0 (by decide) (by decide),
   c2_parse_int_amended.2.1 4 8 432,
   c2_parse_int_amended.2.2.1 [120] 10 0 120 (by decide) (by decide) (by decide),
   c2_parse_int_amended.2.2.2 [49] 10 0 49 (by decide) (by decide)⟩

/-! ## C3 -/

/-- C3, counterexample: for `data:text/plain;BASE64,AAAA` the last
parameter token, trimmed and lowercased, is `base64`, so the claim
requires `is_base64 == true`; the code's case-sensitive untrimmed
`parameters.endswith(';base64')` check yields `false`. -/
theorem c3_base64_counterexample :
    (reMatch (preprocessDataURL "data:text/plain;BASE64,AAAA")).map RegexMatch.parameters
        = some ";BASE64".data
  ∧ specLastTokenBase64 ";BASE64".data = true
  ∧ (dataURLInit (some "data:text/plain;BASE64,AAAA")).map DataURLFile.is_base64
        = some false := by
  decide

/-- C3, amended: `is_base64` is true iff the raw parameter group of the
matched data URL literally ends with the lowercase string `;base64` —
without trimming and case-sensitively; unmatched URLs give `false`. -/
theorem c3_is_base64_amended (s : String) (f : DataURLFile)
    (hf : dataURLInit (some s) = some f) :
    f.is_base64 = (match reMatch (preprocessDataURL s) with
                   | some m => endsWithList m.parameters ";base64".data
                   | none => false) := by
  cases hm : reMatch (preprocessDataURL s) with
  | none =>
    simp only [dataURLInit, Option.getD_some, hm] at hf
    injection hf with hf
    rw [← hf]
  | some m =>
    simp only [dataURLInit, Option.getD_some, hm] at hf
    split at hf
    · exact absurd hf (by simp)
    · injection hf with hf
      rw [← hf]
      by_cases he : m.parameters.isEmpty
      · have hnil : m.parameters = [] := by
          cases hp : m.parameters with
          | nil => rfl
          | cons x xs => rw [hp] at he; exact absurd he (by simp)
        simp [he, hnil, endsWithList]
      · simp [he]

/-- C3, witness: the amended theorem applied to `data:;base64,AAAA`. -/
theorem c3_is_base64_witness :
    b64FileExample.is_base64 =
      (match reMatch (preprocessDataURL "data:;base64,AAAA") with
       | some m => endsWithList m.parameters ";base64".data
       | none => false) :=
  c3_is_base64_amended "data:;base64,AAAA" b64FileExample (by decide)

/-! ## C7 -/

/-- C7: `ARMountSource.open` on any `FileInfo` whose mode satisfies
`S_ISLNK` raises the "cannot read symlink" domain error instead of
returning a stenciled stream. -/
theorem c7_open_symlink_error (fileInfo : ArFileInfo)
    (h : S_ISLNK fileInfo.mode = true) :
    ar_open fileInfo = Except.error "Cannot read contents of symbolic link!" := by
  simp only [ar_open, h, if_true]

/-- C7, witness: a thin-archive member mode (`S_IFLNK` set). -/
theorem c7_open_symlink_witness :
    ar_open { size := 10, mode := 0o644 ||| 0o100000 ||| 0o120000, data_offset := 68 } =
      Except.error "Cannot read contents of symbolic link!" :=
  c7_open_symlink_error
    { size := 10, mode := 0o644 ||| 0o100000 ||| 0o120000, data_offset := 68 } (by decide)

/-! ## C8 -/

/-- C8: any input whose preprocessed form does not match `DATA_URL_REGEX`
constructs without error a `DataURLFile` with empty content and the
defaults `mime_type == "text/plain"`, `encoding == "ascii"`,
`is_base64 == false`. -/
theorem c8_invalid_url_defaults (s : String)
    (h : reMatch (preprocessDataURL s) = none) :
    dataURLInit (some s) =
      some { mime_type := "text/plain", valid := false, encoding := "ascii",
             is_base64 := false, content := [] } := by
  simp only [dataURLInit, Option.getD_some, h]

/-- C8, witness: applied to the non-URL input `hello`. -/
theorem c8_invalid_url_witness :
    dataURLInit (some "hello") =
      some { mime_type := "text/plain", valid := false, encoding := "ascii",
             is_base64 := false, content := [] } :=
  c8_invalid_url_defaults "hello" (by decide)

/-! ## C10 -/

/-- C10: the `valid` attribute of every successfully constructed
`DataURLFile` is `false`: it is initialized to `False` and no code path
assigns `True`. -/
theorem c10_valid_always_false (s : Option String) (f : DataURLFile)
    (h : dataURLInit s = some f) : f.valid = false := by
  simp only [dataURLInit] at h
  split at h
  · injection h with h
    rw [← h]
  · split at h
    · exact absurd h (by simp)
    · injection h with h
      rw [← h]

/-- C10, witness: applied to a syntactically valid data URL. -/
theorem c10_valid_witness :
    ({ mime_type := "text/plain", valid := false, encoding := "ascii",
       is_base64 := false, content := [97, 98, 99] } : DataURLFile).valid = false :=
  c10_valid_always_false (some "data:,abc")
    { mime_type := "text/plain", valid := false, encoding := "ascii",
      is_base64 := false, content := [97, 98, 99] } (by decide)

/-! ## C4 -/

/-- C4: whenever `_convert_to_row` emits a row for a span, `open` on that
row returns a stream whose full contents have length `row.size` (both go
through `_open_with_span` on the stored `[header_offset, data_offset)`
span). -/
theorem c4_html_open_size (doc : List Char) (mtime spanStart spanEnd : Nat)
    (original_url : String) (row : HtmlRow)
    (h : html_convert_to_row doc mtime spanStart spanEnd original_url = some row) :
    ∃ f, html_open_row doc row = some f ∧ f.content.length = row.size := by
  simp only [html_convert_to_row] at h
  cases heq : open_with_span doc spanStart spanEnd with
  | none => rw [heq] at h; exact absurd h (by simp)
  | some f =>
    rw [heq] at h
    injection h with h
    refine ⟨f, ?_, ?_⟩
    · rw [← h]
      exact heq
    · rw [← h]

/-- C4, witness: applied to a nine-byte document that is itself a data
URL. -/
theorem c4_html_open_size_witness :
    ∃ f, html_open_row htmlDocExample htmlRowExample = some f ∧
      f.content.length = htmlRowExample.size :=
  c4_html_open_size htmlDocExample 0 0 9 "/x.txt" htmlRowExample (by decide)

/-! ## C9 -/

/-- Helper: the skip condition of `handle_starttag` holds exactly when the
value carries no payload after its first comma. -/
theorem should_skip_iff (v : String) :
    should_skip_value v = true ↔ specPayloadLength v = 0 := by
  cases h : v.data.findIdx? (fun c => c.toNat = 44) with
  | none => simp [should_skip_value, specPayloadLength, pyFindComma, h]
  | some i =>
    simp only [should_skip_value, specPayloadLength, pyFindComma, h, Bool.or_eq_true,
      decide_eq_true_eq]
    omega

/-- Helper: every value in `dict(attrs)` is the value of some pair of
`attrs`. -/
theorem foldl_pyDictInsert_mem :
    ∀ (l acc : List (String × String)) (av : String × String),
      av ∈ l.foldl pyDictInsert acc → (∃ q ∈ acc, q.2 = av.2) ∨ (∃ q ∈ l, q.2 = av.2) := by
  intro l
  induction l with
  | nil => intro acc av h; exact Or.inl ⟨av, h, rfl⟩
  | cons x xs ih =>
    intro acc av h
    rcases ih (pyDictInsert acc x) av h with hacc | hl
    · rcases hacc with ⟨q, hq, hqv⟩
      unfold pyDictInsert at hq
      split at hq
      · rcases List.mem_map.mp hq with ⟨p, hp, hpq⟩
        by_cases hpk : p.1 = x.1
        · rw [if_pos hpk] at hpq
          refine Or.inr ⟨x, by simp, ?_⟩
          rw [← hqv, ← hpq]
        · rw [if_neg hpk] at hpq
          refine Or.inl ⟨p, hp, ?_⟩
          rw [hpq, hqv]
      · rcases List.mem_append.mp hq with h1 | h2
        · exact Or.inl ⟨q, h1, hqv⟩
        · have hx : q = x := by simpa using h2
          refine Or.inr ⟨x, by simp, ?_⟩
          rw [← hqv, hx]
    · rcases hl with ⟨q, hq, hqv⟩
      exact Or.inr ⟨q, by simp [hq], hqv⟩

/-- Helper: specialization to the empty accumulator. -/
theorem pyDict_value_mem (attrs : List (String × String)) (av : String × String)
    (h : av ∈ pyDict attrs) : ∃ q ∈ attrs, q.2 = av.2 := by
  rcases foldl_pyDictInsert_mem attrs [] av h with ⟨q, hq, _⟩ | h2
  · cases hq
  · exact h2

/-- Helper: a conditional-append fold is an append of the filtered images. -/
theorem foldl_append_if {α β : Type} (p : α → Prop) [DecidablePred p] (g : α → β) :
    ∀ (l : List α) (acc : List β),
      l.foldl (fun fs av => if p av then fs ++ [g av] else fs) acc
        = acc ++ l.filterMap (fun av => if p av then some (g av) else none) := by
  intro l
  induction l with
  | nil => simp
  | cons x xs ih =>
    intro acc
    by_cases hx : p x
    · simp only [List.foldl_cons, List.filterMap_cons, if_pos hx]
      rw [ih (acc ++ [g x])]
      simp
    · simp only [List.foldl_cons, List.filterMap_cons, if_neg hx]
      exact ih acc

/-- C9: on a start tag, the appended candidates are exactly one per
`dict(attrs)` entry whose value starts with `data:` and has a nonempty
payload after its first comma; and the skip condition holds exactly when
the payload is empty. -/
theorem c9_starttag_skip :
    (∀ (files : List EmbeddedFileCandidate) (pos : LineOffset)
        (attrs : List (String × String)),
      handle_starttag files pos attrs =
        update_end_offset files pos ++
          (pyDict attrs).filterMap (fun av =>
            if av.2.data.take 5 = "data:".data ∧ specPayloadLength av.2 ≠ 0 then
              some { original_url := pyDictGet (pyDict attrs) ("data-savepage-" ++ av.1),
                     attr_name := av.1, start := pos, next := none }
            else none))
  ∧ (∀ v : String, should_skip_value v = true ↔ specPayloadLength v = 0) := by
  have hiff : ∀ v : String, (should_skip_value v = false) ↔ specPayloadLength v ≠ 0 :=
    fun v => (Bool.eq_false_iff).trans (not_congr (should_skip_iff v))
  have hfun : ∀ (attributes : List (String × String)) (pos : LineOffset)
      (av : String × String),
      (if av.2.data.take 5 = "data:".data ∧ should_skip_value av.2 = false then
        some { original_url := pyDictGet attributes ("data-savepage-" ++ av.1),
               attr_name := av.1, start := pos,
               next := none : EmbeddedFileCandidate }
      else none)
      = (if av.2.data.take 5 = "data:".data ∧ specPayloadLength av.2 ≠ 0 then
          some { original_url := pyDictGet attributes ("data-savepage-" ++ av.1),
                 attr_name := av.1, start := pos, next := none }
         else none) := by
    intro attributes pos av
    exact if_congr (and_congr_right fun _ => hiff av.2) rfl rfl
  refine ⟨?_, should_skip_iff⟩
  intro files pos attrs
  unfold handle_starttag
  by_cases hany : attrs.any (fun p => p.2.data.take 5 = "data:".data)
  · rw [if_neg (by simpa using hany)]
    rw [foldl_append_if
      (fun av : String × String =>
        av.2.data.take 5 = "data:".data ∧ should_skip_value av.2 = false)
      (fun av => { original_url := pyDictGet (pyDict attrs) ("data-savepage-" ++ av.1),
                   attr_name := av.1, start := pos, next := none })
      (pyDict attrs) (update_end_offset files pos)]
    congr 1
    exact List.filterMap_congr (fun av _ => hfun (pyDict attrs) pos av)
  · rw [if_pos (by simpa using hany)]
    have hnil : (pyDict attrs).filterMap (fun av =>
        if av.2.data.take 5 = "data:".data ∧ specPayloadLength av.2 ≠ 0 then
          some { original_url := pyDictGet (pyDict attrs) ("data-savepage-" ++ av.1),
                 attr_name := av.1, start := pos,
                 next := none : EmbeddedFileCandidate }
        else none) = [] := by
      rw [List.filterMap_eq_nil_iff]
      intro av hav
      rw [if_neg]
      intro hc
      rcases pyDict_value_mem attrs av hav with ⟨q, hq, hqv⟩
      rw [List.any_eq_true] at hany
      exact hany ⟨q, hq, by simp [hqv, hc.1]⟩
    rw [hnil, List.append_nil]

/-- C9, witness: the first conjunct applied to one concrete start tag with
one payload-carrying and one empty data URL. -/
theorem c9_starttag_skip_witness :
    handle_starttag [] { line := 1, offset := 0 }
        [("src", "data:,x"), ("poster", "data:,")] =
      update_end_offset [] { line := 1, offset := 0 } ++
        (pyDict [("src", "data:,x"), ("poster", "data:,")]).filterMap (fun av =>
          if av.2.data.take 5 = "data:".data ∧ specPayloadLength av.2 ≠ 0 then
            some { original_url := pyDictGet
                     (pyDict [("src", "data:,x"), ("poster", "data:,")])
                     ("data-savepage-" ++ av.1),
                   attr_name := av.1, start := { line := 1, offset := 0 }, next := none }
          else none) :=
  c9_starttag_skip.1 [] { line := 1, offset := 0 }
    [("src", "data:,x"), ("poster", "data:,")]

/-! ## C5 -/

/-- C5, counterexample: in the thin archive `thinArchiveExample` the single
member has `data_offset + size = 78`, but the stream is only 68 bytes long
(thin-archive bodies live outside the archive), so
`data_offset + size ≤ stream_length` fails. -/
theorem c5_ar_span_counterexample :
    parse_ar_archive thinArchiveExample = some [thinRecordExample]
  ∧ thinRecordExample.offset_data = 68 ∧ thinRecordExample.size = 10
  ∧ thinArchiveExample.length = 68
  ∧ ¬ ((68 : Int) + 10 ≤ 68) := by decide

/-- Helper: length of a bounded read. -/
theorem readBytes_length (fileBytes : List Nat) (pos n : Nat) :
    (readBytes fileBytes pos n).length = min n (fileBytes.length - pos) := by
  simp [readBytes]

/-- Helper: a full read of `n` bytes means `pos + n` is within the file. -/
theorem readBytes_full (fileBytes : List Nat) (pos n : Nat)
    (h : (readBytes fileBytes pos n).length = n) : pos + n ≤ fileBytes.length ∨ n = 0 := by
  rw [readBytes_length] at h
  omega

/-- Helper: `retroRewrite` does not change the offsets or the size. -/
theorem retroRewrite_offsets (is_thin : Bool) (ln : Option LongNames) (f : ArTarInfo) :
    (retroRewrite is_thin ln f).offset = f.offset ∧
    (retroRewrite is_thin ln f).offset_data = f.offset_data := by
  unfold retroRewrite
  cases is_thin <;> simp

/-- Helper: the name returned by `parseHeaderFields` is the rstripped
16-byte name field. -/
theorem parseHeaderFields_name (header : List Nat) (name0 : List Nat)
    (mt uid gid md sz : Nat)
    (h : parseHeaderFields header = some (name0, mt, uid, gid, md, sz)) :
    name0 = rstripSpaceNul (header.take 16) := by
  unfold parseHeaderFields at h
  split at h
  · exact absurd h (by simp)
  · split at h
    · injection h with h
      injection h with h1 h2
      exact h1.symm
    · exact absurd h (by simp)

/-- Helper: the offsets stored by `emitRecord` are its offset arguments. -/
theorem emitRecord_offset (a1 : Bool) (a2 : Option LongNames) (ho od : Nat) (s : Int)
    (mt uid gid mode : Nat) (rn : List Nat) :
    (emitRecord a1 a2 ho od s mt uid gid mode rn).offset = ho ∧
    (emitRecord a1 a2 ho od s mt uid gid mode rn).offset_data = od :=
  ⟨rfl, rfl⟩

/-- Helper: the loop preserves the span invariant for every emitted row. -/
theorem parseLoop_span_invariant (fileBytes : List Nat) :
    ∀ (fuel pos : Nat) (is_thin : Bool) (ln : Option LongNames)
      (files files' : List ArTarInfo),
      (∀ f ∈ files, spanOk fileBytes f) →
      parseLoop fileBytes fuel pos is_thin ln files = some files' →
      ∀ f ∈ files', spanOk fileBytes f := by
  intro fuel
  induction fuel with
  | zero =>
    intro pos is_thin ln files files' _ h
    exact absurd h (by simp [parseLoop])
  | succ fuel ih =>
    intro pos is_thin ln files files' hfiles h
    simp only [parseLoop] at h
    by_cases hemp : (readBytes fileBytes pos 60).isEmpty
    · rw [if_pos hemp] at h
      injection h with h
      rw [← h]
      exact hfiles
    · rw [if_neg hemp] at h
      by_cases hshort : (readBytes fileBytes pos 60).length < 60
      · rw [if_pos hshort] at h
        exact absurd h (by simp)
      · rw [if_neg hshort] at h
        have hlen : (readBytes fileBytes pos 60).length = 60 := by
          have := readBytes_length fileBytes pos 60
          omega
        have hpos : pos + 60 ≤ fileBytes.length := by
          rcases readBytes_full fileBytes pos 60 hlen with h60 | h0
          · exact h60
          · cases h0
        cases hph : parseHeaderFields (readBytes fileBytes pos 60) with
        | none =>
          simp only [hph] at h
          exact absurd h (by simp)
        | some t =>
          obtain ⟨name0, mt, uid, gid, md, sz⟩ := t
          simp only [hph] at h
          by_cases hsym : name0 = [47]
          · rw [if_pos hsym] at h
            exact ih _ is_thin ln files files' hfiles h
          · rw [if_neg hsym] at h
            by_cases hgnu : name0 = [47, 47]
            · rw [if_pos hgnu] at h
              refine ih _ is_thin _ _ files' ?_ h
              intro f hf
              rcases List.mem_map.mp hf with ⟨g, hg, hgf⟩
              have hoff := retroRewrite_offsets is_thin
                (processGnuTable fileBytes (pos + 60) sz is_thin).1 g
              have hs := hfiles g hg
              rw [← hgf]
              unfold spanOk at hs ⊢
              rw [hoff.1, hoff.2]
              exact hs
            · rw [if_neg hgnu] at h
              have hname0 : name0 = rstripSpaceNul ((readBytes fileBytes pos 60).take 16) :=
                parseHeaderFields_name _ _ _ _ _ _ _ hph
              by_cases hbsd : name0.take 3 = [35, 49, 47]
              · rw [if_pos hbsd] at h
                cases hpi : pyIntBytes (name0.drop 3) 10 with
                | none =>
                  simp only [hpi] at h
                  exact absurd h (by simp)
                | some name_size =>
                  simp only [hpi] at h
                  by_cases hnm : (readBytes fileBytes (pos + 60) name_size).length ≠ name_size
                  · rw [if_pos hnm] at h
                    exact absurd h (by simp)
                  · rw [if_neg hnm] at h
                    push_neg at hnm
                    have hfit : pos + 60 + name_size ≤ fileBytes.length := by
                      rcases readBytes_full fileBytes (pos + 60) name_size hnm with hk | hk
                      · exact hk
                      · omega
                    have hinfo : ∀ mode, spanOk fileBytes (emitRecord is_thin ln pos
                        (pos + 60 + name_size) ((sz : Int) - (name_size : Int)) mt uid gid mode
                        (readBytes fileBytes (pos + 60) name_size)) := by
                      intro mode
                      have hof := emitRecord_offset is_thin ln pos (pos + 60 + name_size)
                        ((sz : Int) - (name_size : Int)) mt uid gid mode
                        (readBytes fileBytes (pos + 60) name_size)
                      unfold spanOk
                      rw [hof.1, hof.2]
                      refine ⟨by omega, by omega, Or.inr ⟨name_size, by omega, ?_, ?_⟩⟩
                      · rw [← hname0]; exact hbsd
                      · rw [← hname0]; exact hpi
                    split at h
                    · refine ih _ is_thin ln _ files' ?_ h
                      intro f hf
                      rcases List.mem_append.mp hf with hf1 | hf2
                      · exact hfiles f hf1
                      · rw [List.mem_singleton.mp hf2]; exact hinfo _
                    · refine ih _ is_thin ln _ files' ?_ h
                      intro f hf
                      rcases List.mem_append.mp hf with hf1 | hf2
                      · exact hfiles f hf1
                      · rw [List.mem_singleton.mp hf2]; exact hinfo _
              · rw [if_neg hbsd] at h
                have hinfo : ∀ mode, spanOk fileBytes (emitRecord is_thin ln pos (pos + 60)
                    (sz : Int) mt uid gid mode name0) := by
                  intro mode
                  have hof := emitRecord_offset is_thin ln pos (pos + 60) (sz : Int)
                    mt uid gid mode name0
                  unfold spanOk
                  rw [hof.1, hof.2]
                  exact ⟨by omega, by omega, Or.inl (by omega)⟩
                split at h
                · refine ih _ is_thin ln _ files' ?_ h
                  intro f hf
                  rcases List.mem_append.mp hf with hf1 | hf2
                  · exact hfiles f hf1
                  · rw [List.mem_singleton.mp hf2]; exact hinfo _
                · refine ih _ is_thin ln _ files' ?_ h
                  intro f hf
                  rcases List.mem_append.mp hf with hf1 | hf2
                  · exact hfiles f hf1
                  · rw [List.mem_singleton.mp hf2]; exact hinfo _

/-- C5, amended: for every row emitted by the AR parser,
`header_offset < data_offset ≤ stream_length`, and the gap
`data_offset - header_offset` is 60, or `60 + N` where the record's name
field reads `#1/N`; the bound `data_offset + size ≤ stream_length` of the
original claim does not hold in general (thin archives and truncated
regular archives violate it, see the counterexample). -/
theorem c5_ar_span_amended (fileBytes : List Nat) (files : List ArTarInfo)
    (h : parse_ar_archive fileBytes = some files) :
    ∀ f ∈ files, spanOk fileBytes f := by
  simp only [parse_ar_archive] at h
  split at h
  · exact absurd h (by simp)
  · exact parseLoop_span_invariant fileBytes _ 8 _ none [] files (by simp) h

/-- C5, witness: the amended theorem applied to the thin example archive. -/
theorem c5_ar_span_witness : spanOk thinArchiveExample thinRecordExample :=
  c5_ar_span_amended thinArchiveExample [thinRecordExample] (by decide)
    thinRecordExample (by simp)

/-! ## C6 -/

/-- C6, counterexample: in `gnuOutOfRangeExample` a member named `/99`
precedes a GNU `//` table with two entries; its name has the `/<digits>`
form, yet after parsing the whole archive the emitted row still carries
the placeholder name `/99` — it was not rewritten from the table, because
index 99 is out of range. -/
theorem c6_gnu_table_counterexample :
    parse_ar_archive gnuOutOfRangeExample = some [gnuOutOfRangeRecord]
  ∧ gnuOutOfRangeRecord.name = asc "/99"
  ∧ (asc "/99").headD 0 = 47
  ∧ ((asc "/99").drop 1).all isDigitByte = true := by decide

/-- C6, amended: when the parser reads a GNU `//` long-name record it emits
no row for it and replaces the previously emitted rows by their
`retroRewrite` images (thin archives store the resolution in the link
target, regular archives replace the name); a `/<digits>` name is resolved
from the table exactly when its number is in range, and is left unchanged
otherwise. -/
theorem c6_gnu_table_amended :
    (∀ (fileBytes : List Nat) (fuel pos : Nat) (is_thin : Bool)
        (ln : Option LongNames) (files : List ArTarInfo)
        (mt uid gid md sz : Nat),
      parseHeaderFields (readBytes fileBytes pos 60) = some ([47, 47], mt, uid, gid, md, sz) →
      (readBytes fileBytes pos 60).length = 60 →
      parseLoop fileBytes (fuel + 1) pos is_thin ln files =
        parseLoop fileBytes fuel (processGnuTable fileBytes (pos + 60) sz is_thin).2 is_thin
          (processGnuTable fileBytes (pos + 60) sz is_thin).1
          (files.map (retroRewrite is_thin (processGnuTable fileBytes (pos + 60) sz is_thin).1)))
  ∧ (∀ (entries : List (List Nat)) (ds : List Nat),
      entries ≠ [] → ds ≠ [] → ds.all isDigitByte = true →
      get_long_file_name false (some (LongNames.gnuList entries)) (47 :: ds)
        = if digitsVal ds < entries.length then entries.getD (digitsVal ds) []
          else 47 :: ds)
  ∧ (∀ (ln : Option LongNames) (f : ArTarInfo),
      retroRewrite true ln f = { f with linkname := get_long_file_name true ln f.name } ∧
      retroRewrite false ln f = { f with name := get_long_file_name false ln f.name }) := by
  refine ⟨?_, ?_, ?_⟩
  · intro fileBytes fuel pos is_thin ln files mt uid gid md sz hph hlen
    have hemp : (readBytes fileBytes pos 60).isEmpty = false := by
      cases hr : readBytes fileBytes pos 60 with
      | nil => rw [hr] at hlen; simp at hlen
      | cons a l => rfl
    simp only [parseLoop, hemp, hlen, hph]
    norm_num
  · intro entries ds hne hds hdig
    have htr : lnTruthy (some (LongNames.gnuList entries)) = true := by
      simp [lnTruthy, hne]
    unfold get_long_file_name
    rw [if_pos]
    · simp only []
      by_cases hlt : digitsVal ((47 :: ds).drop 1) < entries.length
      · rw [if_pos ⟨hlt, by trivial⟩]
        simp only [List.drop_succ_cons, List.drop_zero] at hlt ⊢
        rw [if_pos hlt]
      · rw [if_neg (by
          intro hc
          exact hlt hc.1)]
        simp only [List.drop_succ_cons, List.drop_zero] at hlt
        rw [if_neg hlt]
    · simp only [htr, List.headD_cons, List.drop_succ_cons, List.drop_zero, hdig]
      simp [hds]
  · intro ln f
    exact ⟨rfl, rfl⟩

/-- C6, witness: the table-resolution conjunct applied to a two-entry
table and an in-range index. -/
theorem c6_gnu_table_witness :
    get_long_file_name false (some (LongNames.gnuList [[97], []])) (47 :: [48])
      = if digitsVal [48] < ([[97], []] : List (List Nat)).length
          then ([[97], []] : List (List Nat)).getD (digitsVal [48]) []
          else 47 :: [48] :=
  c6_gnu_table_amended.2.1 [[97], []] [48] (by decide) (by decide) (by decide)
